import Mathlib

/-!
Verification of the HTTP test-client core of the QA_Automation repository:
the configuration resolver (config/config.py), the request dispatcher and
session layer (utils/api_client.py), and the assertion layer
(utils/assertions.py).  Python string operations and the parts of the
standard library and of urllib3 that the source configures and calls are
embedded as executable Lean definitions; every definition is translated
from the corresponding source function.
-/

set_option autoImplicit false

/-! ### Python string primitives, modelled on lists of characters -/

/-- Python str.lstrip with a single strip character: drop every leading
occurrence of the character. -/
def pyLstrip (c : Char) (l : List Char) : List Char :=
  l.dropWhile (fun x => x = c)

/-- Python str.rstrip with a single strip character: drop every trailing
occurrence of the character. -/
def pyRstrip (c : Char) (l : List Char) : List Char :=
  (pyLstrip c l.reverse).reverse

/-- Python str.split on a single separator character.  Always returns at
least one piece; adjacent separators produce empty pieces. -/
def pySplit (c : Char) : List Char → List (List Char)
  | [] => [[]]
  | x :: xs =>
    let r := pySplit c xs
    if x = c then [] :: r
    else
      match r with
      | s :: rest => (x :: s) :: rest
      | [] => [[x]]

/-- Python sep.join on a list of pieces. -/
def pyJoin (c : Char) : List (List Char) → List Char
  | [] => []
  | [s] => s
  | s :: rest => s ++ c :: pyJoin c rest

/-- Python str.split(sep, 1): split once at the first occurrence of the
character, or report that the character does not occur. -/
def splitOnceChar (c : Char) : List Char → Option (List Char × List Char)
  | [] => none
  | x :: xs =>
    if x = c then some ([], xs)
    else (splitOnceChar c xs).map (fun p => (x :: p.1, p.2))

/-- ASCII lower-casing of one character, as Python str.lower acts on the
ASCII range (all strings handled by the claims are ASCII). -/
def asciiLower (c : Char) : Char :=
  if 'A' ≤ c ∧ c ≤ 'Z' then Char.ofNat (c.toNat + 32) else c

/-- ASCII upper-casing of one character, as Python str.upper acts on the
ASCII range. -/
def asciiUpper (c : Char) : Char :=
  if 'a' ≤ c ∧ c ≤ 'z' then Char.ofNat (c.toNat - 32) else c

/-- Python str.lower over a string (ASCII range). -/
def pyLower (s : String) : String := ⟨s.data.map asciiLower⟩

/-- Python str.upper over a string (ASCII range). -/
def pyUpper (s : String) : String := ⟨s.data.map asciiUpper⟩

/-- Python str.startswith. -/
def pyStartsWith (s pre : String) : Bool :=
  pre.data.isPrefixOf s.data

/-- Python str.endswith. -/
def pyEndsWith (s suf : String) : Bool :=
  suf.data.reverse.isPrefixOf s.data.reverse

/-- Containment of one character list inside another. -/
def listContainsSeq (pat : List Char) : List Char → Bool
  | [] => pat.isEmpty
  | x :: xs => pat.isPrefixOf (x :: xs) || listContainsSeq pat xs

/-- Python substring containment, the in operator on strings. -/
def pyContains (s sub : String) : Bool :=
  listContainsSeq sub.data s.data

/-- Membership of a character in a string, the in operator against a
one-character pattern. -/
def pyHasChar (c : Char) (l : List Char) : Bool := l.contains c

theorem pySplit_ne_nil (c : Char) (l : List Char) : pySplit c l ≠ [] := by
  induction l with
  | nil => simp [pySplit]
  | cons x xs ih =>
    simp only [pySplit]
    split
    · simp
    · match h : pySplit c xs with
      | [] => exact absurd h ih
      | s :: rest => simp

theorem pyJoin_pySplit (c : Char) (l : List Char) :
    pyJoin c (pySplit c l) = l := by
  induction l with
  | nil => rfl
  | cons x xs ih =>
    simp only [pySplit]
    split
    · rename_i hx
      subst hx
      match h : pySplit x xs with
      | [] => exact absurd h (pySplit_ne_nil x xs)
      | s :: rest =>
        rw [h] at ih
        simpa [pyJoin] using ih
    · match h : pySplit c xs with
      | [] => exact absurd h (pySplit_ne_nil c xs)
      | s :: rest =>
        rw [h] at ih
        cases rest with
        | nil => simpa [pyJoin] using congrArg (x :: ·) ih
        | cons t ts => simpa [pyJoin] using congrArg (x :: ·) ih

theorem splitOnceChar_eq_none (c : Char) (l : List Char)
    (h : pyHasChar c l = false) : splitOnceChar c l = none := by
  induction l with
  | nil => rfl
  | cons x xs ih =>
    simp only [pyHasChar, List.contains_cons, Bool.or_eq_false_iff] at h
    have hx : ¬ x = c := by
      intro hxc
      subst hxc
      simp at h
    simp only [splitOnceChar, if_neg hx]
    rw [ih (by simpa [pyHasChar] using h.2)]
    rfl

/-! ### Model of CPython urllib.parse, the part reached by urljoin

The request dispatcher builds URLs with urllib.parse.urljoin
(api_client.py line 54).  The definitions below translate the CPython
implementation (Lib/urllib/parse.py, CPython 3.11), including the
sanitisation urlsplit applies before parsing: leading C0 controls and
spaces are stripped from the URL, and every tab, carriage return and
newline is removed. -/

/-- The characters of _WHATWG_C0_CONTROL_OR_SPACE: the C0 controls and
the space, every codepoint up to 32. -/
def whatwgC0OrSpace (c : Char) : Bool := c.toNat ≤ 32

/-- The characters of _UNSAFE_URL_BYTES_TO_REMOVE: tab, carriage
return and newline. -/
def unsafeUrlByte (c : Char) : Bool := c = '\t' || c = '\r' || c = '\n'

/-- The sanitisation urlsplit applies to its url argument: strip
leading C0 controls and spaces only, then delete every tab, carriage
return and newline. -/
def sanitizeUrl (l : List Char) : List Char :=
  (l.dropWhile whatwgC0OrSpace).filter (fun c => ¬ unsafeUrlByte c)

/-- The sanitisation urlsplit applies to its scheme argument: strip C0
controls and spaces from both ends, then delete every tab, carriage
return and newline. -/
def sanitizeScheme (l : List Char) : List Char :=
  ((l.dropWhile whatwgC0OrSpace).reverse.dropWhile whatwgC0OrSpace).reverse.filter
    (fun c => ¬ unsafeUrlByte c)

/-- Characters allowed inside a URL scheme after the first, as in CPython
scheme_chars. -/
def schemeChar (c : Char) : Bool :=
  c.isAlpha || c.isDigit || c = '+' || c = '-' || c = '.'

/-- The components returned by urlsplit: scheme, netloc, path, query,
fragment.  Empty lists stand for the empty strings CPython uses. -/
structure UrlSplitParts where
  scheme : List Char
  netloc : List Char
  path : List Char
  query : List Char
  fragment : List Char
deriving DecidableEq, Repr

/-- The components returned by urlparse: urlsplit plus the params field
split from the last path segment. -/
structure UrlParseParts where
  scheme : List Char
  netloc : List Char
  path : List Char
  params : List Char
  query : List Char
  fragment : List Char
deriving DecidableEq, Repr

/-- Scheme detection of urlsplit: the text before the first colon is a
scheme when it is nonempty, starts with an ASCII letter and has only
scheme characters; it is then lower-cased and removed, otherwise the
default scheme applies and the input is unchanged. -/
def parseScheme (dflt l : List Char) : List Char × List Char :=
  match splitOnceChar ':' l with
  | none => (dflt, l)
  | some (before, after) =>
    if before ≠ [] ∧ before.head?.any Char.isAlpha ∧ before.all schemeChar then
      (before.map asciiLower, after)
    else (dflt, l)

/-- The netloc scan of _splitnetloc: take characters up to the first
slash, question mark or hash sign. -/
def splitNetloc (l : List Char) : List Char × List Char :=
  (l.takeWhile (fun c => ¬ (c = '/' ∨ c = '?' ∨ c = '#')),
   l.dropWhile (fun c => ¬ (c = '/' ∨ c = '?' ∨ c = '#')))

/-- CPython urlsplit on character lists, with a default scheme: both
arguments are sanitised first, then the scheme, netloc, fragment and
query are split off in that order. -/
def urlsplitL (dflt l : List Char) : UrlSplitParts :=
  let sp := parseScheme (sanitizeScheme dflt) (sanitizeUrl l)
  let scheme := sp.1
  let rest0 := sp.2
  let nl :=
    if rest0.take 2 = ['/', '/'] then splitNetloc (rest0.drop 2)
    else ([], rest0)
  let netloc := nl.1
  let rest1 := nl.2
  let fr :=
    match splitOnceChar '#' rest1 with
    | none => (rest1, [])
    | some p => p
  let rest2 := fr.1
  let fragment := fr.2
  let qu :=
    match splitOnceChar '?' rest2 with
    | none => (rest2, [])
    | some p => p
  ⟨scheme, netloc, qu.1, qu.2, fragment⟩

/-- The schemes of CPython uses_relative. -/
def usesRelative : List (List Char) :=
  ["".data, "ftp".data, "http".data, "gopher".data, "nntp".data,
   "imap".data, "wais".data, "file".data, "https".data, "shttp".data,
   "mms".data, "prospero".data, "rtsp".data, "rtspu".data, "sftp".data,
   "svn".data, "svn+ssh".data, "ws".data, "wss".data]

/-- The schemes of CPython uses_netloc. -/
def usesNetloc : List (List Char) :=
  ["".data, "ftp".data, "http".data, "gopher".data, "nntp".data,
   "telnet".data, "imap".data, "wais".data, "file".data, "mms".data,
   "https".data, "shttp".data, "snews".data, "prospero".data,
   "rtsp".data, "rtspu".data, "rsync".data, "svn".data,
   "svn+ssh".data, "sftp".data, "nfs".data, "git".data,
   "git+ssh".data, "ws".data, "wss".data, "itms-services".data]

/-- The schemes of CPython uses_params. -/
def usesParams : List (List Char) :=
  ["".data, "ftp".data, "hdl".data, "prospero".data, "http".data,
   "imap".data, "https".data, "shttp".data, "rtsp".data,
   "rtspu".data, "sip".data, "sips".data, "mms".data, "sftp".data,
   "tel".data]

/-- CPython _splitparams: when the path has a slash, look for the first
semicolon at or after the last slash, that is inside the last path
segment, and split the params field off there; without a slash, split at
the first semicolon of the whole path.  When no semicolon is found in
the searched region the path is returned whole with empty params. -/
def splitparams (path : List Char) : List Char × List Char :=
  if pyHasChar '/' path then
    let rev := path.reverse
    let lastSeg := (rev.takeWhile (fun c => ¬ c = '/')).reverse
    match splitOnceChar ';' lastSeg with
    | none => (path, [])
    | some p => ((rev.dropWhile (fun c => ¬ c = '/')).reverse ++ p.1, p.2)
  else
    match splitOnceChar ';' path with
    | none => (path, [])
    | some p => p

/-- CPython urlparse: urlsplit followed by the params split when the
scheme uses params and the path holds a semicolon. -/
def urlparseL (dflt l : List Char) : UrlParseParts :=
  let s := urlsplitL dflt l
  if s.scheme ∈ usesParams ∧ pyHasChar ';' s.path then
    let pp := splitparams s.path
    ⟨s.scheme, s.netloc, pp.1, pp.2, s.query, s.fragment⟩
  else
    ⟨s.scheme, s.netloc, s.path, [], s.query, s.fragment⟩

/-- CPython urlunsplit: reassemble scheme, netloc, path, query and
fragment, with the double slash inserted exactly when a netloc is
present or the path itself starts with a double slash. -/
def urlunsplitL (scheme netloc path query fragment : List Char) :
    List Char :=
  let url :=
    if netloc ≠ [] ∨ (path ≠ [] ∧ path.take 2 = ['/', '/']) then
      let p := if path ≠ [] ∧ path.head? ≠ some '/' then '/' :: path else path
      '/' :: '/' :: netloc ++ p
    else path
  let url := if scheme ≠ [] then scheme ++ ':' :: url else url
  let url := if query ≠ [] then url ++ '?' :: query else url
  if fragment ≠ [] then url ++ '#' :: fragment else url

/-- CPython urlunparse: glue the params back onto the path with a
semicolon, then urlunsplit. -/
def urlunparseL (scheme netloc path params query fragment : List Char) :
    List Char :=
  let p := if params ≠ [] then path ++ ';' :: params else path
  urlunsplitL scheme netloc p query fragment

/-- The interior filter of urljoin: the Python slice assignment
segments[1:-1] = filter(None, segments[1:-1]) drops empty segments that
are neither first nor last. -/
def filterMid : List (List Char) → List (List Char)
  | [] => []
  | [a] => [a]
  | a :: rest => if a = [] then filterMid rest else a :: filterMid rest

/-- The segment resolution loop of urljoin: dotdot pops the last
resolved segment when there is one, dot is skipped, everything else is
appended.  The accumulator holds the resolved segments reversed. -/
def resolveSegs (acc : List (List Char)) : List (List Char) → List (List Char)
  | [] => acc.reverse
  | s :: rest =>
    if s = ['.', '.'] then resolveSegs acc.tail rest
    else if s = ['.'] then resolveSegs acc rest
    else resolveSegs (s :: acc) rest

/-- CPython urljoin on character lists. -/
def urljoinL (base url : List Char) : List Char :=
  if base = [] then url
  else if url = [] then base
  else
    let b := urlparseL [] base
    let u := urlparseL b.scheme url
    if ¬ (u.scheme = b.scheme ∧ u.scheme ∈ usesRelative) then url
    else
      let netloc0 := if u.scheme ∈ usesNetloc then b.netloc else u.netloc
      if u.scheme ∈ usesNetloc ∧ u.netloc ≠ [] then
        urlunparseL u.scheme u.netloc u.path u.params u.query u.fragment
      else if u.path = [] ∧ u.params = [] then
        let query := if u.query = [] then b.query else u.query
        urlunparseL u.scheme netloc0 b.path b.params query u.fragment
      else
        let baseParts0 := pySplit '/' b.path
        let baseParts :=
          if baseParts0.getLast? ≠ some [] then baseParts0.dropLast
          else baseParts0
        let segments :=
          if u.path.head? = some '/' then pySplit '/' u.path
          else
            match baseParts ++ pySplit '/' u.path with
            | [] => []
            | s0 :: rest => s0 :: filterMid rest
        let resolved := resolveSegs [] segments
        let resolved :=
          if segments.getLast? = some ['.'] ∨ segments.getLast? = some ['.', '.'] then
            resolved ++ [[]]
          else resolved
        let joined := pyJoin '/' resolved
        let path := if joined = [] then ['/'] else joined
        urlunparseL u.scheme netloc0 path u.params u.query u.fragment

/-- Python urljoin on strings. -/
def pyUrljoin (base url : String) : String :=
  ⟨urljoinL base.data url.data⟩

/-! ### Python JSON values

Values produced by json.load and response.json: None, booleans, ints,
floats, strings, lists and dicts.  Dicts are modelled as association
lists in insertion order. -/

inductive Json where
  | null
  | bool (b : Bool)
  | int (n : Int)
  | float (q : ℚ)
  | str (s : String)
  | arr (elems : List Json)
  | obj (entries : List (String × Json))

/-- The numeric value of a Python scalar, when it has one; Python bools
are numbers (True equals 1). -/
def Json.numVal : Json → Option ℚ
  | .bool b => some (if b then 1 else 0)
  | .int n => some (n : ℚ)
  | .float q => some q
  | _ => none

/-- Whether a value is Python None, the identity test value is None. -/
def Json.isNull : Json → Bool
  | .null => true
  | _ => false

mutual
/-- Python equality on JSON values: numeric scalars compare by value,
strings and None structurally, containers pointwise.  Dict comparison is
modelled in entry order; Python compares dicts per key, which agrees
whenever entry order matches, as it does at every use in this
development. -/
def pyEqJson : Json → Json → Bool
  | .arr a, .arr b => pyEqJsonList a b
  | .obj a, .obj b => pyEqJsonEntries a b
  | a, b =>
    match a.numVal, b.numVal with
    | some x, some y => x == y
    | _, _ =>
      match a, b with
      | .null, .null => true
      | .str s, .str t => s == t
      | _, _ => false

/-- Pointwise Python equality on lists of JSON values. -/
def pyEqJsonList : List Json → List Json → Bool
  | [], [] => true
  | x :: xs, y :: ys => pyEqJson x y && pyEqJsonList xs ys
  | _, _ => false

/-- Pointwise Python equality on dict entries. -/
def pyEqJsonEntries : List (String × Json) → List (String × Json) → Bool
  | [], [] => true
  | (k, v) :: xs, (k2, v2) :: ys => k == k2 && pyEqJson v v2 && pyEqJsonEntries xs ys
  | _, _ => false
end

/-- Python dict.get with a default: first entry with the key, else the
default. -/
def jdictGet (entries : List (String × Json)) (key : String) (dflt : Json) : Json :=
  match entries.find? (fun e => e.1 = key) with
  | some e => e.2
  | none => dflt

/-- Python dict.get returning None when absent. -/
def jdictGetOpt (entries : List (String × Json)) (key : String) : Option Json :=
  (entries.find? (fun e => e.1 = key)).map (fun e => e.2)

/-- Python dict item assignment: replace the value in place when the key
exists, otherwise append the new entry at the end. -/
def jdictSet (entries : List (String × Json)) (key : String) (v : Json) :
    List (String × Json) :=
  if (entries.find? (fun e => e.1 = key)).isSome then
    entries.map (fun e => if e.1 = key then (key, v) else e)
  else entries ++ [(key, v)]

/-! ### Response records

The fields of a requests.Response that the dispatcher and the assertion
layer read: status code, final URL, headers, body text, and the outcome
of response.json, which is a parsed value or a JSONDecodeError. -/

structure PyResponse where
  status_code : Nat
  url : String
  headers : List (String × String)
  text : String
  jsonVal : Option Json

/-! ### Logging and Python exceptions -/

/-- Severity levels of the loguru logger used by the source. -/
inductive LogLevel where
  | debug
  | info
  | warning
  | error
deriving DecidableEq, Repr

/-- One emitted log line: severity and message. -/
abbrev LogEvent := LogLevel × String

/-- The Python exceptions the embedded code can raise. -/
inductive PyErr where
  | assertionError (msg : String)
  | attributeError (msg : String)
  | typeError (msg : String)
deriving DecidableEq, Repr

/-! ### Case-insensitive header dictionaries

requests stores session and request headers in a CaseInsensitiveDict:
lookup, overwrite and deletion compare keys after lower-casing while the
stored key keeps its original spelling. -/

/-- Case-insensitive key comparison. -/
def ciEqKey (a b : String) : Bool := pyLower a == pyLower b

/-- Case-insensitive lookup. -/
def ciGet (d : List (String × String)) (k : String) : Option String :=
  (d.find? (fun e => ciEqKey e.1 k)).map (fun e => e.2)

/-- Case-insensitive overwrite: any entry with an equivalent key is
dropped and the new pair appended. -/
def ciSet (d : List (String × String)) (k v : String) : List (String × String) :=
  d.filter (fun e => ¬ ciEqKey e.1 k) ++ [(k, v)]

/-- Case-insensitive deletion. -/
def ciDel (d : List (String × String)) (k : String) : List (String × String) :=
  d.filter (fun e => ¬ ciEqKey e.1 k)

/-- requests merge_setting for headers: start from the session headers
and overwrite with each per-call header, so the per-call value wins on
conflict. -/
def ciMerge (sess call : List (String × String)) : List (String × String) :=
  call.foldl (fun acc e => ciSet acc e.1 e.2) sess

/-! ### Base64 and basic authentication

requests sends session.auth credentials as an Authorization header whose
value is the word Basic followed by the base64 of user:password. -/

/-- The base64 alphabet. -/
def base64Chars : List Char :=
  "ABCDEFGHIJKLMNOPQRSTUVWXYZabcdefghijklmnopqrstuvwxyz0123456789+/".data

/-- The base64 digit for a 6-bit value. -/
def b64Char (i : Nat) : Char := base64Chars.getD i '='

/-- Standard base64 of a byte sequence, with padding. -/
def b64Encode : List Nat → List Char
  | [] => []
  | [a] => [b64Char (a / 4), b64Char (a % 4 * 16), '=', '=']
  | [a, b] => [b64Char (a / 4), b64Char (a % 4 * 16 + b / 16), b64Char (b % 16 * 4), '=']
  | a :: b :: c :: rest =>
    b64Char (a / 4) :: b64Char (a % 4 * 16 + b / 16) ::
      b64Char (b % 16 * 4 + c / 64) :: b64Char (c % 64) :: b64Encode rest

/-- The header value requests produces for HTTP basic auth (credentials
restricted to one-byte characters, as everywhere in this repository). -/
def basicAuthValue (user pass : String) : String :=
  "Basic " ++ ⟨b64Encode ((user ++ ":" ++ pass).data.map Char.toNat)⟩

/-! ### The urllib3 retry machinery configured by _create_session

APIClient._create_session (api_client.py lines 29 to 48) mounts an
HTTPAdapter whose Retry object has total equal to the configured
retry_count, backoff_factor equal to the configured retry_delay, the
status_forcelist and allowed_methods below, and library defaults
otherwise.  The definitions model the retry loop of
urllib3.connectionpool.HTTPConnectionPool.urlopen together with
Retry.increment, Retry.is_retry and Retry.get_backoff_time (urllib3
1.26 and 2.x agree on all of it), for responses without a Retry-After
header. -/

/-- The statuses the session retries, from api_client.py line 37. -/
def statusForcelist : List Nat := [429, 500, 502, 503, 504]

/-- The methods the session retries, from api_client.py line 38. -/
def retryAllowedMethods : List String :=
  ["HEAD", "GET", "PUT", "DELETE", "OPTIONS", "TRACE", "POST"]

/-- Retry.DEFAULT_BACKOFF_MAX, the cap on one backoff sleep in seconds. -/
def retryBackoffMax : ℚ := 120

/-- Retry.is_retry for a response status: the method must be allowed and
the status in the forcelist. -/
def retryIsRetry (method : String) (status : Nat) : Bool :=
  retryAllowedMethods.contains method && statusForcelist.contains status

/-- Retry.get_backoff_time: zero before the first retry, then
backoff_factor times 2 to the number of consecutive errors minus one,
clamped to the 120 second cap and to zero from below. -/
def getBackoffTime (backoffFactor : ℚ) (consecutiveErrors : Nat) : ℚ :=
  if consecutiveErrors ≤ 1 then 0
  else max 0 (min retryBackoffMax (backoffFactor * 2 ^ (consecutiveErrors - 1)))

/-- The transport retry loop.  The server is a function from the attempt
index to the returned status.  Arguments: remaining total retries, the
index of the attempt about to be made, and the length of the retry
history.  Returns the number of attempts issued, the backoff slept
before each retry in order, and either the final response status or the
MaxRetryError that surfaces to the caller as a
requests.exceptions.RetryError. -/
def runUrlopen (server : Nat → Nat) (method : String) (backoffFactor : ℚ) :
    Nat → Nat → Nat → Nat × List ℚ × Except Unit Nat
  | total, i, h =>
    if retryIsRetry method (server i) then
      match total with
      | 0 => (1, [], Except.error ())
      | Nat.succ t =>
        let rest := runUrlopen server method backoffFactor t (i + 1) (h + 1)
        (rest.1 + 1, getBackoffTime backoffFactor (h + 1) :: rest.2.1, rest.2.2)
    else (1, [], Except.ok (server i))

/-! ### The request dispatcher, utils/api_client.py -/

/-- APIClient._build_url (api_client.py lines 50 to 54): an endpoint
starting with a scheme is used verbatim; otherwise the base URL is
right-stripped of slashes, one slash appended, the endpoint left-stripped
of slashes, and the two joined with urljoin. -/
def buildUrl (baseUrl endpoint : String) : String :=
  if pyStartsWith endpoint "http://" || pyStartsWith endpoint "https://" then endpoint
  else pyUrljoin ⟨pyRstrip '/' baseUrl.data ++ ['/']⟩ ⟨pyLstrip '/' endpoint.data⟩

/-- The headers requests.Session starts with before _create_session
applies the configured defaults.  The user agent version text is
abbreviated; no claim reads these values. -/
def requestsDefaultHeaders : List (String × String) :=
  [("User-Agent", "python-requests"), ("Accept-Encoding", "gzip, deflate"),
   ("Accept", "*/*"), ("Connection", "keep-alive")]

/-- The mutable state of one APIClient: the bound base URL, the session
default headers, the session auth pair, and the single last_response
and response_time slots (api_client.py lines 22 to 27). -/
structure APIClient where
  base_url : String
  session_headers : List (String × String)
  session_auth : Option (String × String)
  last_response : Option PyResponse
  response_time : ℚ

/-- APIClient.__init__: the base URL argument or the configured one when
the argument is absent or falsy, likewise the default headers, which are
layered over the session's initial headers; the last_response slot
starts at None and response_time at zero. -/
def APIClient.init (baseUrlArg : Option String) (headersArg : Option (List (String × String)))
    (cfgBaseUrl : String) (cfgHeaders : List (String × String)) : APIClient :=
  let effBase := match baseUrlArg with
    | some s => if s = "" then cfgBaseUrl else s
    | none => cfgBaseUrl
  let effHeaders := match headersArg with
    | some h => if h = [] then cfgHeaders else h
    | none => cfgHeaders
  { base_url := effBase
  , session_headers := ciMerge requestsDefaultHeaders effHeaders
  , session_auth := none
  , last_response := none
  , response_time := 0 }

/-- APIClient.set_auth_token (lines 151 to 154): store the scheme and
token in the session Authorization header. -/
def APIClient.set_auth_token (c : APIClient) (token : String) (authType : String) : APIClient :=
  { c with session_headers := ciSet c.session_headers "Authorization" (authType ++ " " ++ token) }

/-- APIClient.set_basic_auth (lines 156 to 159): store the credential
pair on the session. -/
def APIClient.set_basic_auth (c : APIClient) (user pass : String) : APIClient :=
  { c with session_auth := some (user, pass) }

/-- APIClient.add_header (lines 161 to 164). -/
def APIClient.add_header (c : APIClient) (k v : String) : APIClient :=
  { c with session_headers := ciSet c.session_headers k v }

/-- APIClient.remove_header (lines 166 to 170): delete the key when
present, do nothing otherwise. -/
def APIClient.remove_header (c : APIClient) (k : String) : APIClient :=
  if (ciGet c.session_headers k).isSome then
    { c with session_headers := ciDel c.session_headers k }
  else c

/-- What the underlying transport did for one dispatched call: either a
response came back, of any status, or a requests.exceptions
.RequestException was raised after the transport's own retries were
exhausted.  The exception is identified by its text. -/
inductive TransportOutcome where
  | success (resp : PyResponse)
  | failure (e : String)

/-- The request the transport receives from the dispatcher: upper-cased
method, built URL, the session headers merged with the per-call headers
and the session auth applied, and the effective timeout. -/
structure SentRequest where
  method : String
  url : String
  headers : List (String × String)
  timeout : Int

/-- Everything observable about one APIClient.request call: the client
state afterwards, the emitted log lines, what was handed to the
transport, and the returned response or re-raised exception. -/
structure RequestResult where
  client : APIClient
  logs : List LogEvent
  sent : SentRequest
  result : Except String PyResponse

/-- The effective timeout of line 102, the expression timeout or
config_instance.timeout: a given nonzero timeout wins, while None and
the falsy value zero fall back to the configured default. -/
def effectiveTimeout (timeout : Option Int) (cfgTimeout : Int) : Int :=
  match timeout with
  | some t => if t = 0 then cfgTimeout else t
  | none => cfgTimeout

/-- APIClient.request (api_client.py lines 78 to 117).  The transport
outcome and the measured wall-clock time are inputs of the model.  On
success the response and its time are stored in the two client slots,
the response is logged and returned whatever its status; on a transport
exception the response_time slot is still overwritten, the failure is
logged at error level and the same exception is re-raised.  The debug
log lines for headers and bodies, and the pass-through params, json and
data arguments, are elided; no claim reads them. -/
def APIClient.request (c : APIClient) (method endpoint : String)
    (headers : Option (List (String × String))) (timeout : Option Int)
    (cfgTimeout : Int) (outcome : TransportOutcome) (elapsed : ℚ) : RequestResult :=
  let url := buildUrl c.base_url endpoint
  let requestLogs : List LogEvent := [(LogLevel.info, "🔄 " ++ pyUpper method ++ " " ++ url)]
  let merged := ciMerge c.session_headers (headers.getD [])
  let sentHeaders := match c.session_auth with
    | some up => ciSet merged "Authorization" (basicAuthValue up.1 up.2)
    | none => merged
  let sent : SentRequest :=
    ⟨pyUpper method, url, sentHeaders, effectiveTimeout timeout cfgTimeout⟩
  match outcome with
  | .success resp =>
    { client := { c with last_response := some resp, response_time := elapsed }
    , logs := requestLogs ++ [(LogLevel.info, "📋 Response: " ++ toString resp.status_code)]
    , sent := sent
    , result := .ok resp }
  | .failure e =>
    { client := { c with response_time := elapsed }
    , logs := requestLogs ++ [(LogLevel.error, "❌ Request failed: " ++ e)]
    , sent := sent
    , result := .error e }

/-! ### The configuration resolver, config/config.py -/

/-- What reading and parsing environments.json did: the file was
missing, it held invalid JSON, or it parsed to a value. -/
inductive FileOutcome where
  | notFound
  | invalidJson
  | content (j : Json)

/-- Config._default_config (config.py lines 37 to 48). -/
def defaultConfigEntries : List (String × Json) :=
  [("base_url", .str "https://jsonplaceholder.typicode.com"),
   ("timeout", .int 30),
   ("retry_count", .int 3),
   ("retry_delay", .int 1),
   ("headers", .obj [("Content-Type", .str "application/json"),
                     ("Accept", .str "application/json")])]

/-- The default configuration as the dict Python builds. -/
def defaultConfig : Json := .obj defaultConfigEntries

/-- Config._load_config (config.py lines 22 to 35): a missing file logs
a warning and falls back to the defaults, invalid JSON logs an error and
falls back to the defaults, and a parsed file is narrowed to the entry
of the requested environment, the dev entry, or an empty dict.  The
errText argument carries the text of the JSONDecodeError shown in the
log line; a parsed value that is not a dict makes the untried attribute
access all_configs.get raise. -/
def loadConfig (environment : String) (file : FileOutcome)
    (configFilePath errText : String) : Except PyErr Json × List LogEvent :=
  match file with
  | .notFound =>
    (.ok defaultConfig,
     [(LogLevel.warning, "Config file not found: " ++ configFilePath)])
  | .invalidJson =>
    (.ok defaultConfig,
     [(LogLevel.error, "Invalid JSON in config file: " ++ errText)])
  | .content j =>
    match j with
    | .obj allConfigs =>
      (.ok (jdictGet allConfigs environment (jdictGet allConfigs "dev" (.obj []))), [])
    | _ => (.error (.attributeError "get"), [])

/-- The property pattern config_data.get(key, default) shared by every
Config property (config.py lines 50 to 90): an AttributeError when the
held value is not a dict. -/
def configGet (configData : Json) (key : String) (dflt : Json) : Except PyErr Json :=
  match configData with
  | .obj entries => .ok (jdictGet entries key dflt)
  | _ => .error (.attributeError "get")

/-- Config.base_url. -/
def configBaseUrl (d : Json) : Except PyErr Json :=
  configGet d "base_url" (.str "https://jsonplaceholder.typicode.com")

/-- Config.timeout. -/
def configTimeout (d : Json) : Except PyErr Json := configGet d "timeout" (.int 30)

/-- Config.retry_count. -/
def configRetryCount (d : Json) : Except PyErr Json := configGet d "retry_count" (.int 3)

/-- Config.retry_delay. -/
def configRetryDelay (d : Json) : Except PyErr Json := configGet d "retry_delay" (.int 1)

/-- Config.update (config.py lines 92 to 95): item assignment on the
held dict, with no validation of the value. -/
def configUpdate (d : Json) (key : String) (v : Json) : Except PyErr Json :=
  match d with
  | .obj entries => .ok (.obj (jdictSet entries key v))
  | _ => .error (.typeError "item assignment")

/-- The configuration states a process can reach: the dict produced by
construction under any environment and file outcome, and anything an
update call produces from a reachable state. -/
inductive ConfigReachable : Json → Prop where
  | load (environment : String) (file : FileOutcome) (p e : String) (d : Json)
      (h : (loadConfig environment file p e).1 = .ok d) : ConfigReachable d
  | update (d : Json) (k : String) (v : Json) (d2 : Json)
      (hd : ConfigReachable d) (h : configUpdate d k v = .ok d2) : ConfigReachable d2

/-! ### Path expressions and the assertion layer, utils/assertions.py

The assertion helpers address into response JSON with jmespath.search.
Path expressions appear here in parsed form, the dot and bracket
addressing steps the repository actually uses; jmespath returns Python
None both for a path that does not resolve and for a resolved JSON
null, and the model's null value plays that role. -/

/-- One step of a path expression: a field name or a list index. -/
inductive JStep where
  | field (name : String)
  | index (i : Int)

/-- Python list indexing as jmespath applies it: negative indices count
from the end, anything out of range yields null. -/
def pyListIndex (xs : List Json) (i : Int) : Option Json :=
  let j := if i < 0 then i + xs.length else i
  if 0 ≤ j ∧ j < xs.length then xs.get? j.toNat else none

/-- jmespath.search on a parsed dot and bracket expression: walking a
missing field, a wrong-typed value or an out-of-range index gives null,
which Python sees as None. -/
def jmesWalk : List JStep → Json → Json
  | [], v => v
  | .field k :: rest, .obj entries =>
    match jdictGetOpt entries k with
    | some v => jmesWalk rest v
    | none => .null
  | .field _ :: _, _ => .null
  | .index i :: rest, .arr xs =>
    match pyListIndex xs i with
    | some v => jmesWalk rest v
    | none => .null
  | .index _ :: _, _ => .null

/-- The source text of a parsed path expression, used in messages. -/
def jpathRender (p : List JStep) : String :=
  p.foldl (fun acc st =>
    match st with
    | .field k => if acc = "" then k else acc ++ "." ++ k
    | .index i => acc ++ "[" ++ toString i ++ "]") ""

/-- A string in single quotes, as Python f-string reprs write paths. -/
def squote (s : String) : String := "'" ++ s ++ "'"

/-- Python str of a JSON scalar, for assertion message text; container
rendering is abbreviated, no claim reads it. -/
def pyStrJson : Json → String
  | .null => "None"
  | .bool b => if b then "True" else "False"
  | .int n => toString n
  | .float q => toString q
  | .str s => s
  | .arr _ => "list"
  | .obj _ => "dict"

/-- The Python types a type mapping can name. -/
inductive PyType where
  | str
  | int
  | float
  | bool
  | list
  | dict
deriving DecidableEq, Repr

/-- Python isinstance on JSON values; a bool is an instance of int
because Python bool subclasses int. -/
def pyIsinstance : Json → PyType → Bool
  | .str _, .str => true
  | .int _, .int => true
  | .bool _, .int => true
  | .bool _, .bool => true
  | .float _, .float => true
  | .arr _, .list => true
  | .obj _, .dict => true
  | _, _ => false

/-- The name of a named type, type.__name__. -/
def pyTypeName : PyType → String
  | .str => "str"
  | .int => "int"
  | .float => "float"
  | .bool => "bool"
  | .list => "list"
  | .dict => "dict"

/-- The name of the runtime type of a value. -/
def jsonTypeName : Json → String
  | .null => "NoneType"
  | .bool _ => "bool"
  | .int _ => "int"
  | .float _ => "float"
  | .str _ => "str"
  | .arr _ => "list"
  | .obj _ => "dict"

/-- APIAssertions.assert_status_code (assertions.py lines 18 to 26):
log the intent at info level, compare, and on mismatch raise an
AssertionError carrying the expected and actual codes; nothing is
logged at error level and the URL is not consulted. -/
def assert_status_code (response : PyResponse) (expectedCode : Nat)
    (message : Option String) : List LogEvent × Except PyErr Unit :=
  let actualCode := response.status_code
  let assertionMsg := message.getD
    ("Expected status code " ++ toString expectedCode ++ ", got " ++ toString actualCode)
  let pre : List LogEvent :=
    [(LogLevel.info, "🔍 Asserting status code: " ++ toString expectedCode)]
  if actualCode = expectedCode then
    (pre ++ [(LogLevel.info, "✅ Status code assertion passed: " ++ toString actualCode)],
     .ok ())
  else (pre, .error (.assertionError assertionMsg))

/-- APIAssertions.assert_json_key_exists (lines 64 to 79): a response
that is not JSON raises the uniform assertion failure after an error
log; a path resolving to None raises it; otherwise the value is
returned. -/
def assert_json_key_exists (response : PyResponse) (keyPath : List JStep)
    (message : Option String) : List LogEvent × Except PyErr Json :=
  match response.jsonVal with
  | none =>
    ([(LogLevel.error, "❌ Response is not valid JSON")],
     .error (.assertionError (message.getD "Response is not valid JSON")))
  | some data =>
    let result := jmesWalk keyPath data
    let assertionMsg := message.getD
      ("Key " ++ squote (jpathRender keyPath) ++ " not found in response")
    let pre : List LogEvent :=
      [(LogLevel.info, "🔍 Checking if key exists: " ++ jpathRender keyPath)]
    if result.isNull then (pre, .error (.assertionError assertionMsg))
    else
      (pre ++ [(LogLevel.info, "✅ Key exists assertion passed: " ++ jpathRender keyPath)],
       .ok result)

/-- APIAssertions.assert_json_key_value (lines 81 to 95): compare the
looked-up value with the expectation under Python equality; a missing
path yields None on the left of that comparison. -/
def assert_json_key_value (response : PyResponse) (keyPath : List JStep)
    (expectedValue : Json) (message : Option String) :
    List LogEvent × Except PyErr Unit :=
  match response.jsonVal with
  | none =>
    ([(LogLevel.error, "❌ Response is not valid JSON")],
     .error (.assertionError (message.getD "Response is not valid JSON")))
  | some data =>
    let actualValue := jmesWalk keyPath data
    let assertionMsg := message.getD
      ("Expected " ++ squote (jpathRender keyPath) ++ " = " ++ pyStrJson expectedValue ++
       ", got " ++ pyStrJson actualValue)
    let pre : List LogEvent :=
      [(LogLevel.info, "🔍 Asserting key value: " ++ jpathRender keyPath ++ " = " ++
        pyStrJson expectedValue)]
    if pyEqJson actualValue expectedValue then
      (pre ++ [(LogLevel.info, "✅ Key value assertion passed")], .ok ())
    else (pre, .error (.assertionError assertionMsg))

/-- APIAssertions.assert_json_array_length (lines 164 to 190): a None
lookup and a non-list lookup each raise the uniform assertion failure
after an error log; then the length is compared. -/
def assert_json_array_length (response : PyResponse) (keyPath : List JStep)
    (expectedLength : Nat) (message : Option String) :
    List LogEvent × Except PyErr Unit :=
  match response.jsonVal with
  | none =>
    ([(LogLevel.error, "❌ Response is not valid JSON")],
     .error (.assertionError (message.getD "Response is not valid JSON")))
  | some data =>
    let arrayData := jmesWalk keyPath data
    if arrayData.isNull then
      let msg := "Array not found at path: " ++ jpathRender keyPath
      ([(LogLevel.error, "❌ " ++ msg)], .error (.assertionError msg))
    else
      match arrayData with
      | .arr xs =>
        let actualLength := xs.length
        let assertionMsg := message.getD
          ("Expected array length " ++ toString expectedLength ++ ", got " ++
           toString actualLength)
        let pre : List LogEvent :=
          [(LogLevel.info, "🔍 Asserting array length: " ++ toString expectedLength)]
        if actualLength = expectedLength then
          (pre ++ [(LogLevel.info, "✅ Array length assertion passed: " ++
            toString actualLength)], .ok ())
        else (pre, .error (.assertionError assertionMsg))
      | _ =>
        let msg := "Data at path " ++ squote (jpathRender keyPath) ++ " is not an array"
        ([(LogLevel.error, "❌ " ++ msg)], .error (.assertionError msg))

/-- The loop body of assert_json_types over the entries of the type
mapping, in order: a None lookup raises, a failed isinstance raises,
a passing entry logs and continues. -/
def assertJsonTypesLoop (data : Json) (message : Option String) :
    List (List JStep × PyType) → List LogEvent × Except PyErr Unit
  | [] => ([], .ok ())
  | (p, ty) :: rest =>
    let value := jmesWalk p data
    if value.isNull then
      let msg := "Key " ++ squote (jpathRender p) ++ " not found in response"
      ([(LogLevel.error, "❌ " ++ msg)], .error (.assertionError msg))
    else if ¬ pyIsinstance value ty then
      let msg := message.getD
        ("Expected " ++ squote (jpathRender p) ++ " to be " ++ pyTypeName ty ++
         ", got " ++ jsonTypeName value)
      ([(LogLevel.error, "❌ Type assertion failed: " ++ jpathRender p)],
       .error (.assertionError msg))
    else
      let r := assertJsonTypesLoop data message rest
      ((LogLevel.info, "✅ Type assertion passed: " ++ jpathRender p ++ " is " ++
        pyTypeName ty) :: r.1, r.2)

/-- APIAssertions.assert_json_types (lines 192 to 216). -/
def assert_json_types (response : PyResponse)
    (typeMapping : List (List JStep × PyType)) (message : Option String) :
    List LogEvent × Except PyErr Unit :=
  match response.jsonVal with
  | none =>
    ([(LogLevel.error, "❌ Response is not valid JSON")],
     .error (.assertionError (message.getD "Response is not valid JSON")))
  | some data => assertJsonTypesLoop data message typeMapping

/-! ### Claim C1: attempt count and backoff of the configured transport -/

/-- Whether the transport surfaced a MaxRetryError. -/
def isRetryError (r : Except Unit Nat) : Bool :=
  match r with
  | .error _ => true
  | .ok _ => false

/-- Claim C1 at one configuration: against a server that always answers
503, a GET issues exactly n plus one attempts, the backoff before each
of the n retries is backoff_factor times 2 to the attempt index, and a
failure surfaces. -/
def claimC1At (n : Nat) (f : ℚ) : Prop :=
  (runUrlopen (fun _ => 503) "GET" f n 0 0).1 = n + 1 ∧
  (runUrlopen (fun _ => 503) "GET" f n 0 0).2.1 =
    (List.range n).map (fun j => f * 2 ^ j) ∧
  isRetryError (runUrlopen (fun _ => 503) "GET" f n 0 0).2.2 = true

/-- Closed form of the retry loop when every attempt draws a retryable
status: one more attempt than the remaining total, one backoff sleep per
retry, and a MaxRetryError at the end. -/
theorem runUrlopen_always_retry (server : Nat → Nat) (method : String) (f : ℚ)
    (hres : ∀ i, retryIsRetry method (server i) = true) :
    ∀ total i h, runUrlopen server method f total i h =
      (total + 1,
       (List.range total).map (fun j => getBackoffTime f (h + 1 + j)),
       Except.error ()) := by
  intro total
  induction total with
  | zero =>
    intro i h
    simp [runUrlopen, hres i]
  | succ t ih =>
    intro i h
    simp only [runUrlopen, hres i, if_true, ih (i + 1) (h + 1)]
    refine Prod.ext (by simp) (Prod.ext ?_ (by simp))
    show getBackoffTime f (h + 1) :: (List.range t).map (fun j => getBackoffTime f (h + 1 + 1 + j)) =
      (List.range (t + 1)).map (fun j => getBackoffTime f (h + 1 + j))
    rw [List.range_succ_eq_map, List.map_cons, List.map_map]
    refine congrArg₂ _ (by norm_num) (List.map_congr_left ?_)
    intro j _
    have : h + 1 + 1 + j = h + 1 + Nat.succ j := by omega
    simp [Function.comp, this]

/-- Claim C1 is false as stated: with the default configuration
retry_count 3 and backoff_factor 1, the backoff before the first retry
is 0 seconds, not backoff_factor times 2 to the 0, which would be 1; the
transport sleeps 0, 2 and 4 seconds, not 1, 2 and 4. -/
theorem C1_counterexample : ¬ claimC1At 3 1 := by
  intro h
  have hres : ∀ i : Nat, retryIsRetry "GET" ((fun _ : Nat => 503) i) = true := fun i => by
    show retryIsRetry "GET" 503 = true
    decide
  have h2 := h.2.1
  rw [runUrlopen_always_retry (fun _ => 503) "GET" 1 hres 3 0 0] at h2
  have hr3 : List.range 3 = [0, 1, 2] := by decide
  rw [hr3] at h2
  simp only [List.map_cons, List.map_nil, List.cons.injEq] at h2
  have h0 := h2.1
  rw [show getBackoffTime 1 (0 + 1 + 0) = 0 from by norm_num [getBackoffTime]] at h0
  norm_num at h0

/-- Amended claim C1: for every configured retry_count n and
backoff_factor f, a GET against a target that always returns 503 issues
exactly n plus one attempts and then surfaces a failure; the backoff
before the first retry is 0, and the backoff before each later retry is
f times 2 to the zero-based attempt index, clamped to the 120 second
cap, so the formula of the claim holds from the second retry on. -/
theorem C1_attempts_and_backoff (n : Nat) (f : ℚ) :
    (runUrlopen (fun _ => 503) "GET" f n 0 0).1 = n + 1 ∧
    (runUrlopen (fun _ => 503) "GET" f n 0 0).2.1 =
      (List.range n).map
        (fun j => if j = 0 then 0 else max 0 (min retryBackoffMax (f * 2 ^ j))) ∧
    isRetryError (runUrlopen (fun _ => 503) "GET" f n 0 0).2.2 = true := by
  have hres : ∀ i : Nat, retryIsRetry "GET" ((fun _ : Nat => 503) i) = true := fun i => by
    show retryIsRetry "GET" 503 = true
    decide
  rw [runUrlopen_always_retry (fun _ => 503) "GET" f hres n 0 0]
  refine ⟨rfl, ?_, rfl⟩
  refine List.map_congr_left ?_
  intro j _
  rcases Nat.eq_zero_or_pos j with hj | hj
  · subst hj
    simp [getBackoffTime]
  · have h1 : ¬ 0 + 1 + j ≤ 1 := by omega
    have h2 : 0 + 1 + j - 1 = j := by omega
    simp [getBackoffTime, h1, h2, if_neg (Nat.pos_iff_ne_zero.mp hj)]

/-! ### Claim C2: URL building -/


theorem head_pyLstrip (d : Char) (l : List Char) :
    (pyLstrip d l).head? ≠ some d := by
  induction l with
  | nil => simp [pyLstrip]
  | cons x xs ih =>
    rw [pyLstrip, List.dropWhile_cons]
    split
    · exact ih
    · rename_i h
      simp only [List.head?_cons, ne_eq, Option.some.injEq]
      intro hx
      exact h (by simp [hx])

theorem mem_pyLstrip (c d : Char) (l : List Char) (h : c ∈ pyLstrip d l) : c ∈ l := by
  induction l with
  | nil => simp [pyLstrip] at h
  | cons x xs ih =>
    rw [pyLstrip, List.dropWhile_cons] at h
    split at h
    · exact List.mem_cons_of_mem x (ih h)
    · exact h

theorem filterMid_cons_empty (S : List (List Char)) (h : S ≠ []) :
    filterMid ([] :: S) = filterMid S := by
  match S with
  | [] => exact absurd rfl h
  | a :: as => simp [filterMid]

theorem filterMid_all_ne (S : List (List Char)) (h : ∀ s ∈ S, s ≠ []) :
    filterMid S = S := by
  induction S with
  | nil => rfl
  | cons a as ih =>
    cases as with
    | nil => rfl
    | cons b bs =>
      have ha : ¬ a = [] := h a (by simp)
      show (if a = [] then filterMid (b :: bs) else a :: filterMid (b :: bs)) = a :: b :: bs
      rw [if_neg ha, ih (fun s hs => h s (List.mem_cons_of_mem a hs))]

theorem resolveSegs_no_dots (l : List (List Char))
    (h : ∀ s ∈ l, s ≠ ['.'] ∧ s ≠ ['.', '.']) :
    ∀ acc, resolveSegs acc l = acc.reverse ++ l := by
  induction l with
  | nil => intro acc; simp [resolveSegs]
  | cons s rest ih =>
    intro acc
    have hs := h s (by simp)
    rw [resolveSegs, if_neg hs.2, if_neg hs.1,
      ih (fun x hx => h x (List.mem_cons_of_mem s hx)) (s :: acc)]
    simp

theorem pyJoin_cons_of_ne (c : Char) (s : List Char) (rest : List (List Char))
    (h : rest ≠ []) : pyJoin c (s :: rest) = s ++ c :: pyJoin c rest := by
  cases rest with
  | nil => exact absurd rfl h
  | cons t ts => rfl

theorem mem_of_getLast?_seg (l : List (List Char)) (a : List Char)
    (h : l.getLast? = some a) : a ∈ l := by
  induction l with
  | nil => simp at h
  | cons x xs ih =>
    cases xs with
    | nil => simp at h; simp [h]
    | cons y ys =>
      rw [List.getLast?_cons_cons] at h
      exact List.mem_cons_of_mem x (ih h)

theorem dropWhile_eq_self_of_head (p : Char → Bool) (l : List Char)
    (h : ∀ c, l.head? = some c → p c = false) : l.dropWhile p = l := by
  cases l with
  | nil => rfl
  | cons x xs =>
    rw [List.dropWhile_cons, if_neg]
    simp [h x rfl]

theorem sanitizeUrl_eq_self (l : List Char)
    (hhead : ∀ c, l.head? = some c → whatwgC0OrSpace c = false)
    (hbytes : ∀ c ∈ l, unsafeUrlByte c = false) : sanitizeUrl l = l := by
  unfold sanitizeUrl
  rw [dropWhile_eq_self_of_head _ _ hhead]
  apply List.filter_eq_self.mpr
  intro a ha
  simp [hbytes a ha]

theorem urlsplitL_plain (dflt e : List Char)
    (hcolon : pyHasChar ':' e = false)
    (hq : pyHasChar '?' e = false)
    (hh : pyHasChar '#' e = false)
    (htake : e.take 2 ≠ ['/', '/'])
    (hheadC0 : ∀ c, e.head? = some c → whatwgC0OrSpace c = false)
    (hbytes : ∀ c ∈ e, unsafeUrlByte c = false) :
    urlsplitL dflt e = ⟨sanitizeScheme dflt, [], e, [], []⟩ := by
  unfold urlsplitL
  rw [show sanitizeUrl e = e from sanitizeUrl_eq_self e hheadC0 hbytes]
  rw [parseScheme, splitOnceChar_eq_none ':' e hcolon]
  simp only [if_neg htake, splitOnceChar_eq_none '#' e hh,
    splitOnceChar_eq_none '?' e hq]

theorem urlparseL_https_plain (e : List Char)
    (hcolon : pyHasChar ':' e = false)
    (hsemi : pyHasChar ';' e = false)
    (hq : pyHasChar '?' e = false)
    (hh : pyHasChar '#' e = false)
    (htake : e.take 2 ≠ ['/', '/'])
    (hheadC0 : ∀ c, e.head? = some c → whatwgC0OrSpace c = false)
    (hbytes : ∀ c ∈ e, unsafeUrlByte c = false) :
    urlparseL "https".data e = ⟨"https".data, [], e, [], [], []⟩ := by
  unfold urlparseL
  rw [urlsplitL_plain "https".data e hcolon hq hh htake hheadC0 hbytes,
    show sanitizeScheme "https".data = "https".data from by decide]
  simp [hsemi]

theorem urlunparse_https_api (e : List Char) :
    urlunparseL "https".data "api.example.com".data ('/' :: e) [] [] [] =
      "https://api.example.com/".data ++ e := by
  unfold urlunparseL urlunsplitL
  simp

theorem urljoinL_plain (e : List Char)
    (hne : e ≠ [])
    (hhead : e.head? ≠ some '/')
    (hcolon : pyHasChar ':' e = false)
    (hsemi : pyHasChar ';' e = false)
    (hq : pyHasChar '?' e = false)
    (hh : pyHasChar '#' e = false)
    (hheadC0 : ∀ c, e.head? = some c → whatwgC0OrSpace c = false)
    (hbytes : ∀ c ∈ e, unsafeUrlByte c = false)
    (hsegs : ∀ s ∈ pySplit '/' e, s ≠ [] ∧ s ≠ ['.'] ∧ s ≠ ['.', '.']) :
    urljoinL "https://api.example.com/".data e = "https://api.example.com/".data ++ e := by
  have htake : e.take 2 ≠ ['/', '/'] := by
    cases e with
    | nil => simp
    | cons x xs =>
      intro hx
      apply hhead
      cases xs with
      | nil => simp [List.take] at hx
      | cons y ys =>
        simp [List.take] at hx
        simp [hx.1]
  have hu : urlparseL "https".data e = ⟨"https".data, [], e, [], [], []⟩ :=
    urlparseL_https_plain e hcolon hsemi hq hh htake hheadC0 hbytes
  have hb : urlparseL [] "https://api.example.com/".data =
      ⟨"https".data, "api.example.com".data, ['/'], [], [], []⟩ := by decide
  have hS := pySplit_ne_nil '/' e
  have hrel : "https".data ∈ usesRelative := by decide
  have hnet : "https".data ∈ usesNetloc := by decide
  have hsplitSlash : pySplit '/' ['/'] = [[], []] := by decide
  have hfm : filterMid ([] :: pySplit '/' e) = pySplit '/' e := by
    rw [filterMid_cons_empty _ hS, filterMid_all_ne _ (fun s hs => (hsegs s hs).1)]
  have hdots : ∀ s ∈ ([] :: pySplit '/' e : List (List Char)),
      s ≠ ['.'] ∧ s ≠ ['.', '.'] := by
    intro s hs
    rcases List.mem_cons.mp hs with h1 | h2
    · subst h1
      exact ⟨by simp, by simp⟩
    · exact ⟨(hsegs s h2).2.1, (hsegs s h2).2.2⟩
  have hres : resolveSegs [] ([] :: pySplit '/' e) = [] :: pySplit '/' e := by
    rw [resolveSegs_no_dots _ hdots []]
    simp
  have hlast1 : (([] :: pySplit '/' e : List (List Char))).getLast? ≠ some ['.'] := by
    cases hSs : pySplit '/' e with
    | nil => exact absurd hSs hS
    | cons a as =>
      rw [List.getLast?_cons_cons]
      intro hx
      have hm := mem_of_getLast?_seg (a :: as) _ hx
      rw [← hSs] at hm
      exact (hsegs _ hm).2.1 rfl
  have hlast2 : (([] :: pySplit '/' e : List (List Char))).getLast? ≠ some ['.', '.'] := by
    cases hSs : pySplit '/' e with
    | nil => exact absurd hSs hS
    | cons a as =>
      rw [List.getLast?_cons_cons]
      intro hx
      have hm := mem_of_getLast?_seg (a :: as) _ hx
      rw [← hSs] at hm
      exact (hsegs _ hm).2.2 rfl
  have hjoin : pyJoin '/' ([] :: pySplit '/' e) = '/' :: e := by
    rw [pyJoin_cons_of_ne '/' [] _ hS, pyJoin_pySplit]
    rfl
  unfold urljoinL
  rw [if_neg (by decide : ¬ "https://api.example.com/".data = ([] : List Char)),
    if_neg hne]
  simp only [hb, hu, hrel, hnet, hsplitSlash, hne, hhead, hfm, hres, hjoin,
    List.cons_append, List.nil_append, ne_eq, not_true_eq_false, not_false_eq_true,
    and_true, true_and, and_false, false_and, if_true, if_false, ite_true, ite_false,
    List.head?_cons, Option.some.injEq, reduceCtorEq]
  have hgl : (([[], []] : List (List Char))).getLast? = some [] := rfl
  simp only [hgl, eq_self_iff_true, not_true, if_false, ite_false, List.cons_append,
    List.nil_append, hfm, hlast1, hlast2, hres, hjoin, reduceCtorEq, ite_true, if_true,
    or_self, false_or, or_false, ne_eq, not_false_eq_true]
  simpa using urlunparse_https_api e

theorem pyHasChar_eq_false (c : Char) (l : List Char) (h : c ∉ l) :
    pyHasChar c l = false := by
  induction l with
  | nil => rfl
  | cons x xs ih =>
    simp only [pyHasChar, List.contains_cons, Bool.or_eq_false_iff]
    constructor
    · simp only [beq_eq_false_iff_ne, ne_eq]
      intro hcx
      exact h (by simp [hcx])
    · exact ih (fun hm => h (List.mem_cons_of_mem x hm))

/-- The join the spec describes, written from the words of the claim:
the base URL and the endpoint with exactly one slash between them. -/
def joinedWithOneSlash (base endpoint : String) : String :=
  ⟨pyRstrip '/' base.data ++ '/' :: pyLstrip '/' endpoint.data⟩

/-- Claim C2 at one base and endpoint: a scheme-carrying endpoint is
returned verbatim, any other endpoint is joined with exactly one
slash. -/
def claimC2At (base endpoint : String) : Prop :=
  buildUrl base endpoint =
    (if pyStartsWith endpoint "http://" || pyStartsWith endpoint "https://" then endpoint
     else joinedWithOneSlash base endpoint)

/-- Claim C2 is false as stated: the endpoint ftp://test does not begin
with http or https, yet _build_url does not join it onto the base URL;
urljoin sees the foreign scheme and returns the endpoint verbatim, so
the result is ftp://test rather than
https://api.example.com/ftp://test. -/
theorem C2_counterexample : ¬ claimC2At "https://api.example.com" "ftp://test" := by
  unfold claimC2At
  decide

/-- Amended claim C2: an endpoint beginning with http or https is used
verbatim whatever the base URL; and joining the base URL
https://api.example.com with any endpoint that has no colon, question
mark, hash, semicolon, tab, carriage return or newline character, no
empty, dot or dot-dot path segment, and no C0 control or space right
after its leading slashes yields exactly the base, one slash, and the
endpoint stripped of leading slashes.  Endpoints outside this domain
are rewritten by urljoin instead of being joined literally: a foreign
scheme is returned verbatim, dot segments and doubled slashes are
collapsed, and tabs, carriage returns, newlines and leading controls
are removed by the sanitisation step of urlsplit. -/
theorem C2_url_building :
    (∀ base endpoint : String,
      (pyStartsWith endpoint "http://" || pyStartsWith endpoint "https://") = true →
      buildUrl base endpoint = endpoint) ∧
    (∀ endpoint : String,
      (pyStartsWith endpoint "http://" || pyStartsWith endpoint "https://") = false →
      endpoint.data.all (fun c => !(c == ':' || c == '?' || c == '#' || c == ';' ||
        c == '\t' || c == '\r' || c == '\n')) = true →
      (pySplit '/' (pyLstrip '/' endpoint.data)).all
        (fun s => !(s.isEmpty || s == ['.'] || s == ['.', '.'])) = true →
      ((pyLstrip '/' endpoint.data).take 1).all (fun c => !whatwgC0OrSpace c) = true →
      buildUrl "https://api.example.com" endpoint =
        joinedWithOneSlash "https://api.example.com" endpoint) := by
  constructor
  · intro base endpoint h
    simp [buildUrl, h]
  · intro endpoint h1 h2 h3 h4
    have hsegs : ∀ s ∈ pySplit '/' (pyLstrip '/' endpoint.data),
        s ≠ [] ∧ s ≠ ['.'] ∧ s ≠ ['.', '.'] := by
      intro s hs
      have hall := List.all_eq_true.mp h3 s hs
      simp only [Bool.not_eq_true', Bool.or_eq_false_iff, beq_eq_false_iff_ne, ne_eq] at hall
      obtain ⟨⟨hemp, hdot⟩, hdd⟩ := hall
      refine ⟨?_, hdot, hdd⟩
      intro h0
      subst h0
      simp at hemp
    have hne : pyLstrip '/' endpoint.data ≠ [] := by
      intro h0
      have hmem : ([] : List Char) ∈ pySplit '/' (pyLstrip '/' endpoint.data) := by
        rw [h0]
        simp [pySplit]
      exact (hsegs [] hmem).1 rfl
    have hhead := head_pyLstrip '/' endpoint.data
    have hchars : ∀ c : Char, c ∈ pyLstrip '/' endpoint.data →
        c ≠ ':' ∧ c ≠ '?' ∧ c ≠ '#' ∧ c ≠ ';' ∧ c ≠ '\t' ∧ c ≠ '\r' ∧ c ≠ '\n' := by
      intro c hc
      have hc2 := mem_pyLstrip c '/' endpoint.data hc
      have hall := List.all_eq_true.mp h2 c hc2
      simp only [Bool.not_eq_true', Bool.or_eq_false_iff, beq_eq_false_iff_ne, ne_eq] at hall
      obtain ⟨⟨⟨⟨⟨⟨ha, hb⟩, hc3⟩, hd⟩, he⟩, hf⟩, hg⟩ := hall
      exact ⟨ha, hb, hc3, hd, he, hf, hg⟩
    have hcolon := pyHasChar_eq_false ':' _ (fun hm => (hchars ':' hm).1 rfl)
    have hsemi := pyHasChar_eq_false ';' _ (fun hm => (hchars ';' hm).2.2.2.1 rfl)
    have hq := pyHasChar_eq_false '?' _ (fun hm => (hchars '?' hm).2.1 rfl)
    have hh := pyHasChar_eq_false '#' _ (fun hm => (hchars '#' hm).2.2.1 rfl)
    have hbytes : ∀ c ∈ pyLstrip '/' endpoint.data, unsafeUrlByte c = false := by
      intro c hc
      have h7 := hchars c hc
      simp [unsafeUrlByte, h7.2.2.2.2.1, h7.2.2.2.2.2.1, h7.2.2.2.2.2.2]
    have hheadC0 : ∀ c, (pyLstrip '/' endpoint.data).head? = some c →
        whatwgC0OrSpace c = false := by
      intro c hc
      cases hE : pyLstrip '/' endpoint.data with
      | nil =>
        rw [hE] at hc
        simp at hc
      | cons x xs =>
        rw [hE] at hc
        simp only [List.head?_cons, Option.some.injEq] at hc
        rw [hE] at h4
        have hx := List.all_eq_true.mp h4 x (by simp [List.take])
        rw [hc] at hx
        simpa using hx
    have hjoin := urljoinL_plain (pyLstrip '/' endpoint.data) hne hhead hcolon hsemi hq hh
      hheadC0 hbytes hsegs
    unfold buildUrl
    rw [if_neg (by simp [h1])]
    show (⟨urljoinL (pyRstrip '/' "https://api.example.com".data ++ ['/'])
        (pyLstrip '/' endpoint.data)⟩ : String) = _
    rw [show pyRstrip '/' "https://api.example.com".data ++ ['/'] =
        "https://api.example.com/".data from by decide]
    rw [hjoin]
    unfold joinedWithOneSlash
    rw [show ("https://api.example.com/".data ++ pyLstrip '/' endpoint.data : List Char) =
        pyRstrip '/' "https://api.example.com".data ++ '/' :: pyLstrip '/' endpoint.data from by
      rw [show pyRstrip '/' "https://api.example.com".data =
          "https://api.example.com".data from by decide,
        show "https://api.example.com/".data =
          "https://api.example.com".data ++ ['/'] from by decide]
      simp]

/-- Witness for the amended claim C2 at the endpoint of the spec
scenario: joining https://api.example.com with /users/1 gives exactly
https://api.example.com/users/1. -/
theorem C2_url_building_witness :
    buildUrl "https://api.example.com" "/users/1" = "https://api.example.com/users/1" := by
  have h := C2_url_building.2 "/users/1" (by decide) (by decide) (by decide) (by decide)
  rw [h]
  decide

/-! ### Claim C3: configuration fallback -/

/-- Claim C3: when the configuration file is absent construction does
not raise, the defaults are used and a warning naming the file is
logged; when it fails to parse construction does not raise, the
defaults are used and an error is logged; and under the defaults the
base URL is the hard-coded jsonplaceholder origin, the timeout 30, the
retry count 3 and the retry delay 1, for every requested environment. -/
theorem C3_config_fallback (environment p e : String) :
    ((loadConfig environment .notFound p e).1 = .ok defaultConfig ∧
      (LogLevel.warning, "Config file not found: " ++ p) ∈
        (loadConfig environment .notFound p e).2) ∧
    ((loadConfig environment .invalidJson p e).1 = .ok defaultConfig ∧
      (LogLevel.error, "Invalid JSON in config file: " ++ e) ∈
        (loadConfig environment .invalidJson p e).2) ∧
    configBaseUrl defaultConfig = .ok (.str "https://jsonplaceholder.typicode.com") ∧
    configTimeout defaultConfig = .ok (.int 30) ∧
    configRetryCount defaultConfig = .ok (.int 3) ∧
    configRetryDelay defaultConfig = .ok (.int 1) :=
  ⟨⟨rfl, by simp [loadConfig]⟩, ⟨rfl, by simp [loadConfig]⟩, rfl, rfl, rfl, rfl⟩

/-! ### Claims C4, C9, C10: dispatcher outcome, timeout, state slots -/

/-- Claim C4: whenever the transport raises, APIClient.request logs the
failure at error level and re-raises the very same exception, for every
client state, call and exception; and a response that does come back is
returned as a value whatever its status code, so no 4xx or 5xx status
is ever turned into an exception by the dispatcher. -/
theorem C4_transport_error_propagation (c : APIClient) (method endpoint : String)
    (headers : Option (List (String × String))) (timeout : Option Int)
    (cfgTimeout : Int) (elapsed : ℚ) :
    (∀ e : String,
      (APIClient.request c method endpoint headers timeout cfgTimeout
          (.failure e) elapsed).result = .error e ∧
      (LogLevel.error, "❌ Request failed: " ++ e) ∈
        (APIClient.request c method endpoint headers timeout cfgTimeout
          (.failure e) elapsed).logs) ∧
    (∀ resp : PyResponse,
      (APIClient.request c method endpoint headers timeout cfgTimeout
          (.success resp) elapsed).result = .ok resp) := by
  refine ⟨fun e => ⟨rfl, ?_⟩, fun resp => rfl⟩
  simp [APIClient.request]

/-- Claim C10: when the transport raises, the last_response slot of the
client is left exactly as it was, previous response or None, while the
response_time slot is overwritten with the elapsed time of the failed
call before the exception propagates. -/
theorem C10_failure_slot_effects (c : APIClient) (method endpoint : String)
    (headers : Option (List (String × String))) (timeout : Option Int)
    (cfgTimeout : Int) (e : String) (elapsed : ℚ) :
    (APIClient.request c method endpoint headers timeout cfgTimeout
        (.failure e) elapsed).client.last_response = c.last_response ∧
    (APIClient.request c method endpoint headers timeout cfgTimeout
        (.failure e) elapsed).client.response_time = elapsed ∧
    (APIClient.request c method endpoint headers timeout cfgTimeout
        (.failure e) elapsed).result = .error e :=
  ⟨rfl, rfl, rfl⟩

/-- A client as the repository constructs its default one, used for
concrete instances. -/
def sampleClient : APIClient :=
  APIClient.init none none "https://jsonplaceholder.typicode.com"
    [("Content-Type", "application/json"), ("Accept", "application/json")]

/-- A plain successful response, used for concrete instances. -/
def sampleResponse : PyResponse :=
  ⟨200, "https://jsonplaceholder.typicode.com/users/1", [], "", none⟩

/-- Claim C9: a given per-call timeout is always the one handed to the
transport, and only an absent timeout falls back to the configured
default. -/
def claimC9 : Prop :=
  ∀ (c : APIClient) (method endpoint : String)
    (headers : Option (List (String × String))) (timeout : Option Int)
    (cfgTimeout : Int) (outcome : TransportOutcome) (elapsed : ℚ),
    (∀ t : Int, timeout = some t →
      (APIClient.request c method endpoint headers timeout cfgTimeout
        outcome elapsed).sent.timeout = t) ∧
    (timeout = none →
      (APIClient.request c method endpoint headers timeout cfgTimeout
        outcome elapsed).sent.timeout = cfgTimeout)

/-- Claim C9 is false as stated: a per-call timeout of 0 is falsy in
Python, so the expression timeout or config_instance.timeout discards
it; with configured timeout 30 the transport receives 30, not the given
0. -/
theorem C9_counterexample : ¬ claimC9 := by
  intro h
  have h0 := (h sampleClient "GET" "/users/1" none (some 0) 30
    (.success sampleResponse) 0).1 0 rfl
  exact absurd h0 (by decide)

/-- Amended claim C9: a given nonzero per-call timeout is applied to
the request; an absent timeout and the falsy value 0 both fall back to
the configured default. -/
theorem C9_effective_timeout (c : APIClient) (method endpoint : String)
    (headers : Option (List (String × String))) (timeout : Option Int)
    (cfgTimeout : Int) (outcome : TransportOutcome) (elapsed : ℚ) :
    (∀ t : Int, timeout = some t → t ≠ 0 →
      (APIClient.request c method endpoint headers timeout cfgTimeout
        outcome elapsed).sent.timeout = t) ∧
    (timeout = none →
      (APIClient.request c method endpoint headers timeout cfgTimeout
        outcome elapsed).sent.timeout = cfgTimeout) ∧
    (timeout = some 0 →
      (APIClient.request c method endpoint headers timeout cfgTimeout
        outcome elapsed).sent.timeout = cfgTimeout) := by
  refine ⟨fun t ht hz => ?_, fun ht => ?_, fun ht => ?_⟩
  · subst ht
    cases outcome <;> simp [APIClient.request, effectiveTimeout, hz]
  · subst ht
    cases outcome <;> simp [APIClient.request, effectiveTimeout]
  · subst ht
    cases outcome <;> simp [APIClient.request, effectiveTimeout]

/-- Witness for the amended claim C9: a per-call timeout of 5 with
configured default 30 reaches the transport as 5. -/
theorem C9_effective_timeout_witness :
    (APIClient.request sampleClient "GET" "/users/1" none (some 5) 30
      (.success sampleResponse) 0).sent.timeout = 5 :=
  (C9_effective_timeout sampleClient "GET" "/users/1" none (some 5) 30
    (.success sampleResponse) 0).1 5 rfl (by decide)

/-! ### Claim C6: the Authorization header lifecycle -/

theorem ciGet_ciSet_self (d : List (String × String)) (k v : String) :
    ciGet (ciSet d k v) k = some v := by
  unfold ciGet ciSet
  rw [List.find?_append]
  have h1 : (d.filter (fun e => ¬ ciEqKey e.1 k)).find? (fun e => ciEqKey e.1 k) = none := by
    rw [List.find?_eq_none]
    intro x hx
    have := List.of_mem_filter hx
    simpa using this
  rw [h1]
  simp [ciEqKey]

theorem ciGet_ciSet_other (d : List (String × String)) (k v k2 : String)
    (h : ciEqKey k k2 = false) : ciGet (ciSet d k v) k2 = ciGet d k2 := by
  unfold ciGet ciSet
  rw [List.find?_append]
  have h2 : ([(k, v)].find? (fun e => ciEqKey e.1 k2)) = none := by
    simp [List.find?, h]
  rw [h2]
  have h3 : (d.filter (fun e => ¬ ciEqKey e.1 k)).find? (fun e => ciEqKey e.1 k2) =
      d.find? (fun e => ciEqKey e.1 k2) := by
    induction d with
    | nil => rfl
    | cons x xs ih =>
      by_cases hx : ciEqKey x.1 k
      · have hxk2 : ciEqKey x.1 k2 = false := by
          unfold ciEqKey at hx h ⊢
          rw [beq_iff_eq] at hx
          rw [beq_eq_false_iff_ne] at h ⊢
          rw [hx]
          exact h
        rw [List.filter_cons_of_neg (by simp [hx]), List.find?_cons_of_neg _ (by simp [hxk2])]
        exact ih
      · rw [List.filter_cons_of_pos (by simp [hx])]
        by_cases hx2 : ciEqKey x.1 k2
        · rw [List.find?_cons_of_pos _ (by simp [hx2]), List.find?_cons_of_pos _ (by simp [hx2])]
        · rw [List.find?_cons_of_neg _ (by simp [hx2]), List.find?_cons_of_neg _ (by simp [hx2])]
          exact ih
  rw [h3]
  cases d.find? (fun e => ciEqKey e.1 k2) <;> rfl

theorem ciGet_ciDel_self (d : List (String × String)) (k : String) :
    ciGet (ciDel d k) k = none := by
  unfold ciGet ciDel
  rw [List.find?_eq_none.mpr]
  · rfl
  · intro x hx
    have := List.of_mem_filter hx
    simpa using this

theorem ciGet_ciDel_other (d : List (String × String)) (k k2 : String)
    (h : ciEqKey k k2 = false) : ciGet (ciDel d k) k2 = ciGet d k2 := by
  unfold ciGet ciDel
  have h3 : (d.filter (fun e => ¬ ciEqKey e.1 k)).find? (fun e => ciEqKey e.1 k2) =
      d.find? (fun e => ciEqKey e.1 k2) := by
    induction d with
    | nil => rfl
    | cons x xs ih =>
      by_cases hx : ciEqKey x.1 k
      · have hxk2 : ciEqKey x.1 k2 = false := by
          unfold ciEqKey at hx h ⊢
          rw [beq_iff_eq] at hx
          rw [beq_eq_false_iff_ne] at h ⊢
          rw [hx]
          exact h
        rw [List.filter_cons_of_neg (by simp [hx]), List.find?_cons_of_neg _ (by simp [hxk2])]
        exact ih
      · rw [List.filter_cons_of_pos (by simp [hx])]
        by_cases hx2 : ciEqKey x.1 k2
        · rw [List.find?_cons_of_pos _ (by simp [hx2]), List.find?_cons_of_pos _ (by simp [hx2])]
        · rw [List.find?_cons_of_neg _ (by simp [hx2]), List.find?_cons_of_neg _ (by simp [hx2])]
          exact ih
  rw [h3]

theorem ciGet_ciMerge_of_no_key (call : List (String × String)) (k : String)
    (hcall : ∀ v ∈ call, ciEqKey v.1 k = false) :
    ∀ sess, ciGet (ciMerge sess call) k = ciGet sess k := by
  induction call with
  | nil => intro sess; rfl
  | cons x xs ih =>
    intro sess
    have hx := hcall x (by simp)
    unfold ciMerge
    rw [List.foldl_cons]
    have := ih (fun v hv => hcall v (List.mem_cons_of_mem x hv)) (ciSet sess x.1 x.2)
    unfold ciMerge at this
    rw [this, ciGet_ciSet_other sess x.1 x.2 k hx]

/-- The header and auth mutations a client offers between calls. -/
inductive ClientOp where
  | setAuthToken (token authType : String)
  | setBasicAuth (user pass : String)
  | addHeader (k v : String)
  | removeHeader (k : String)

/-- Apply one mutation to a client. -/
def applyOp (c : APIClient) : ClientOp → APIClient
  | .setAuthToken t a => c.set_auth_token t a
  | .setBasicAuth u p => c.set_basic_auth u p
  | .addHeader k v => c.add_header k v
  | .removeHeader k => c.remove_header k

/-- Apply a sequence of mutations in order. -/
def applyOps (c : APIClient) : List ClientOp → APIClient
  | [] => c
  | op :: rest => applyOps (applyOp c op) rest

/-- Whether a mutation touches what the client sends as
Authorization: setting a token or basic auth does, and so does adding
or removing a header whose name is case-insensitively Authorization. -/
def opTouchesAuth : ClientOp → Bool
  | .setAuthToken _ _ => true
  | .setBasicAuth _ _ => true
  | .addHeader k _ => ciEqKey k "Authorization"
  | .removeHeader k => ciEqKey k "Authorization"

theorem applyOps_preserves_auth (ops : List ClientOp)
    (hops : ∀ op ∈ ops, opTouchesAuth op = false) :
    ∀ c : APIClient,
      ciGet (applyOps c ops).session_headers "Authorization" =
        ciGet c.session_headers "Authorization" ∧
      (applyOps c ops).session_auth = c.session_auth := by
  induction ops with
  | nil => intro c; exact ⟨rfl, rfl⟩
  | cons op rest ih =>
    intro c
    have hop := hops op (by simp)
    have ihr := ih (fun o ho => hops o (List.mem_cons_of_mem op ho)) (applyOp c op)
    refine ⟨?_, ?_⟩
    · rw [show applyOps c (op :: rest) = applyOps (applyOp c op) rest from rfl, ihr.1]
      cases op with
      | setAuthToken t a => simp [opTouchesAuth] at hop
      | setBasicAuth u p => simp [opTouchesAuth] at hop
      | addHeader k v =>
        simp only [opTouchesAuth] at hop
        exact ciGet_ciSet_other _ _ _ _ hop
      | removeHeader k =>
        simp only [opTouchesAuth] at hop
        show ciGet (c.remove_header k).session_headers "Authorization" = _
        unfold APIClient.remove_header
        split
        · exact ciGet_ciDel_other _ _ _ hop
        · rfl
    · rw [show applyOps c (op :: rest) = applyOps (applyOp c op) rest from rfl, ihr.2]
      cases op with
      | setAuthToken t a => rfl
      | setBasicAuth u p => simp [opTouchesAuth] at hop
      | addHeader k v => rfl
      | removeHeader k =>
        show (c.remove_header k).session_auth = c.session_auth
        unfold APIClient.remove_header
        split <;> rfl

/-- Claim C6: after set_auth_token with token abc, every subsequent
call sends Authorization Bearer abc; after a subsequent remove_header
of Authorization, no later call sends an Authorization header. -/
def claimC6 : Prop :=
  ∀ (c : APIClient) (method endpoint : String)
    (callHeaders : Option (List (String × String))) (timeout : Option Int)
    (cfgTimeout : Int) (outcome : TransportOutcome) (elapsed : ℚ),
    ciGet ((APIClient.request (c.set_auth_token "abc" "Bearer") method endpoint
        callHeaders timeout cfgTimeout outcome elapsed).sent.headers) "Authorization"
      = some "Bearer abc" ∧
    ciGet ((APIClient.request ((c.set_auth_token "abc" "Bearer").remove_header
        "Authorization") method endpoint callHeaders timeout cfgTimeout outcome
        elapsed).sent.headers) "Authorization" = none

/-- Claim C6 is false as stated: a call that itself passes an
Authorization header overrides the session default, because per-call
headers win the merge; after set_auth_token abc, a call with per-call
header Authorization Basic xyz sends Basic xyz, not Bearer abc. -/
theorem C6_counterexample : ¬ claimC6 := by
  intro h
  exact absurd ((h sampleClient "GET" "/users/1" (some [("Authorization", "Basic xyz")])
    none 30 (.success sampleResponse) 0).1) (by decide)

/-- Amended claim C6: after set_auth_token abc, every subsequent call
sends Authorization Bearer abc provided the intervening mutations do
not touch the Authorization header, basic auth is not configured, and
the call does not itself pass an Authorization header; and after a
subsequent remove_header of Authorization, under the same provisos, no
later call sends an Authorization header until it is set again. -/
theorem C6_auth_header (c : APIClient) (ops : List ClientOp)
    (method endpoint : String) (callHeaders : Option (List (String × String)))
    (timeout : Option Int) (cfgTimeout : Int) (outcome : TransportOutcome) (elapsed : ℚ)
    (hops : ∀ op ∈ ops, opTouchesAuth op = false)
    (hcall : ∀ v ∈ callHeaders.getD [], ciEqKey v.1 "Authorization" = false)
    (hauth : c.session_auth = none) :
    ciGet ((APIClient.request (applyOps (c.set_auth_token "abc" "Bearer") ops) method
        endpoint callHeaders timeout cfgTimeout outcome elapsed).sent.headers)
        "Authorization" = some "Bearer abc" ∧
    ciGet ((APIClient.request (applyOps ((c.set_auth_token "abc" "Bearer").remove_header
        "Authorization") ops) method endpoint callHeaders timeout cfgTimeout outcome
        elapsed).sent.headers) "Authorization" = none := by
  have hget1 : ciGet (c.set_auth_token "abc" "Bearer").session_headers "Authorization" =
      some "Bearer abc" :=
    ciGet_ciSet_self c.session_headers "Authorization" "Bearer abc"
  have hrm : (c.set_auth_token "abc" "Bearer").remove_header "Authorization" =
      { c with session_headers :=
          ciDel (c.set_auth_token "abc" "Bearer").session_headers "Authorization" } := by
    unfold APIClient.remove_header
    rw [if_pos (by rw [hget1]; rfl)]
    rfl
  have hpres1 := applyOps_preserves_auth ops hops (c.set_auth_token "abc" "Bearer")
  have hpres2 := applyOps_preserves_auth ops hops
    ((c.set_auth_token "abc" "Bearer").remove_header "Authorization")
  constructor
  · have hauth1 : (applyOps (c.set_auth_token "abc" "Bearer") ops).session_auth = none := by
      rw [hpres1.2]
      exact hauth
    cases outcome <;>
      simp only [APIClient.request, hauth1] <;>
      rw [ciGet_ciMerge_of_no_key (callHeaders.getD []) "Authorization" hcall, hpres1.1, hget1]
  · have hauth2 : (applyOps ((c.set_auth_token "abc" "Bearer").remove_header
        "Authorization") ops).session_auth = none := by
      rw [hpres2.2, hrm]
      exact hauth
    have hget2 : ciGet ((c.set_auth_token "abc" "Bearer").remove_header
        "Authorization").session_headers "Authorization" = none := by
      rw [hrm]
      exact ciGet_ciDel_self _ _
    cases outcome <;>
      simp only [APIClient.request, hauth2] <;>
      rw [ciGet_ciMerge_of_no_key (callHeaders.getD []) "Authorization" hcall, hpres2.1, hget2]

/-- Witness for the amended claim C6 on the default client with no
intervening mutations and no per-call headers. -/
theorem C6_auth_header_witness :
    ciGet ((APIClient.request (applyOps (sampleClient.set_auth_token "abc" "Bearer") [])
        "GET" "/users/1" none none 30 (.success sampleResponse) 0).sent.headers)
        "Authorization" = some "Bearer abc" ∧
    ciGet ((APIClient.request (applyOps ((sampleClient.set_auth_token "abc"
        "Bearer").remove_header "Authorization") []) "GET" "/users/1" none none 30
        (.success sampleResponse) 0).sent.headers) "Authorization" = none :=
  C6_auth_header sampleClient [] "GET" "/users/1" none none 30
    (.success sampleResponse) 0 (by simp) (by simp) rfl

/-! ### Claim C5: the status code assertion on a 404 -/

/-- A 404 response carrying a request URL, used for concrete
instances. -/
def sample404 : PyResponse := ⟨404, "https://api.example.com/users/1", [], "", none⟩

/-- Claim C5: for every 404 response checked against expected 200, the
raised assertion failure carries the actual status 404 and the request
URL, and an error-level line with full context is logged before the
raise. -/
def claimC5 : Prop :=
  ∀ r : PyResponse, r.status_code = 404 →
    (∃ m : String,
      (assert_status_code r 200 none).2 = .error (.assertionError m) ∧
      pyContains m "404" = true ∧ pyContains m r.url = true) ∧
    (∃ msg : String, (LogLevel.error, msg) ∈ (assert_status_code r 200 none).1)

/-- Claim C5 is false as stated: assert_status_code logs only one
info-level line before the assert and nothing at error level, so on the
404 sample response no error-level log exists; the raised message also
carries no URL. -/
theorem C5_counterexample : ¬ claimC5 := by
  intro h
  obtain ⟨-, msg, hmsg⟩ := h sample404 rfl
  simp [assert_status_code, sample404] at hmsg

/-- Amended claim C5: for every 404 response checked against expected
200, assert_status_code raises an AssertionError whose message is
exactly the expected and actual codes, which does include 404 but not
the request URL, and the only logging before the raise is a single
info-level line, none at error level. -/
theorem C5_status_assertion (r : PyResponse) (hr : r.status_code = 404) :
    (assert_status_code r 200 none).2 =
      .error (.assertionError "Expected status code 200, got 404") ∧
    pyContains "Expected status code 200, got 404" "404" = true ∧
    (assert_status_code r 200 none).1 =
      [(LogLevel.info, "🔍 Asserting status code: 200")] := by
  unfold assert_status_code
  rw [hr]
  norm_num
  constructor
  · rfl
  · decide

/-- Witness for the amended claim C5 at the concrete 404 response. -/
theorem C5_status_assertion_witness :
    (assert_status_code sample404 200 none).2 =
      .error (.assertionError "Expected status code 200, got 404") ∧
    pyContains "Expected status code 200, got 404" "404" = true ∧
    (assert_status_code sample404 200 none).1 =
      [(LogLevel.info, "🔍 Asserting status code: 200")] :=
  C5_status_assertion sample404 rfl

/-! ### Claim C7: unresolved path expressions -/

/-- Whether an outcome is the uniform assertion failure, as opposed to
a pass or to an exception of any other type. -/
def raisesAssertion {α : Type} : Except PyErr α → Bool
  | .error (.assertionError _) => true
  | _ => false

/-- A response whose body parses to an empty JSON object, used for
concrete instances. -/
def emptyObjResponse : PyResponse :=
  ⟨200, "https://jsonplaceholder.typicode.com/users/1", [], "", some (.obj [])⟩

/-- Claim C7: for every path-based assertion and every path expression
that does not resolve in the response JSON, the check raises the
uniform assertion failure rather than crashing with any other
exception type. -/
def claimC7 : Prop :=
  ∀ (data : Json) (p : List JStep) (r : PyResponse),
    r.jsonVal = some data → jmesWalk p data = .null →
    raisesAssertion (assert_json_key_exists r p none).2 = true ∧
    (∀ (expected : Json) (msg : Option String),
      raisesAssertion (assert_json_key_value r p expected msg).2 = true) ∧
    (∀ (n : Nat) (msg : Option String),
      raisesAssertion (assert_json_array_length r p n msg).2 = true) ∧
    (∀ (ty : PyType) (msg : Option String),
      raisesAssertion (assert_json_types r [(p, ty)] msg).2 = true)

/-- Claim C7 is false as stated for assert_json_key_value: when the
expected value is itself None, the unresolved path compares equal to
the expectation, since jmespath returns None for a missing path, and
the check passes silently instead of raising. -/
theorem C7_counterexample : ¬ claimC7 := by
  intro h
  have hkv := (h (.obj []) [.field "a"] emptyObjResponse rfl rfl).2.1 .null none
  exact absurd hkv (by decide)

theorem pyEqJson_null_left (v : Json) (h : v ≠ .null) : pyEqJson .null v = false := by
  cases v with
  | null => exact absurd rfl h
  | bool b => rfl
  | int n => rfl
  | float q => rfl
  | str s => rfl
  | arr xs => rfl
  | obj es => rfl

/-- Amended claim C7: on an unresolved path,
assert_json_key_exists, assert_json_array_length and assert_json_types
always raise the uniform assertion failure and never any other
exception type; assert_json_key_value raises it exactly when the
expected value is not None, and passes silently when the expectation
is None. -/
theorem C7_unresolved_paths (data : Json) (p : List JStep) (r : PyResponse)
    (hr : r.jsonVal = some data) (hw : jmesWalk p data = .null) :
    raisesAssertion (assert_json_key_exists r p none).2 = true ∧
    (∀ (expected : Json) (msg : Option String), expected ≠ .null →
      raisesAssertion (assert_json_key_value r p expected msg).2 = true) ∧
    (∀ msg : Option String, (assert_json_key_value r p .null msg).2 = .ok ()) ∧
    (∀ (n : Nat) (msg : Option String),
      raisesAssertion (assert_json_array_length r p n msg).2 = true) ∧
    (∀ (ty : PyType) (msg : Option String),
      raisesAssertion (assert_json_types r [(p, ty)] msg).2 = true) := by
  refine ⟨?_, ?_, ?_, ?_, ?_⟩
  · simp [assert_json_key_exists, hr, hw, Json.isNull, raisesAssertion]
  · intro expected msg hne
    simp [assert_json_key_value, hr, hw, pyEqJson_null_left expected hne, raisesAssertion]
  · intro msg
    simp [assert_json_key_value, hr, hw, pyEqJson, Json.numVal]
  · intro n msg
    simp [assert_json_array_length, hr, hw, Json.isNull, raisesAssertion]
  · intro ty msg
    simp [assert_json_types, assertJsonTypesLoop, hr, hw, Json.isNull, raisesAssertion]

/-- Witness for the amended claim C7: the path a inside an empty
object response makes all four checks raise the uniform assertion
failure, with a non-None expectation for the key-value check. -/
theorem C7_unresolved_paths_witness :
    raisesAssertion (assert_json_key_exists emptyObjResponse [.field "a"] none).2 = true ∧
    raisesAssertion (assert_json_array_length emptyObjResponse [.field "a"] 3 none).2 = true ∧
    raisesAssertion (assert_json_types emptyObjResponse [([.field "a"], .str)] none).2 = true ∧
    raisesAssertion (assert_json_key_value emptyObjResponse [.field "a"] (.int 1) none).2 = true := by
  have h := C7_unresolved_paths (.obj []) [.field "a"] emptyObjResponse rfl rfl
  exact ⟨h.1, h.2.2.2.1 3 none, h.2.2.2.2 .str none, h.2.1 (.int 1) none (by simp)⟩

/-! ### Claim C8: configuration and client invariants -/

/-- Whether a property read yielded a non-negative number. -/
def jsonNonnegNum (r : Except PyErr Json) : Bool :=
  match r with
  | .ok j =>
    match j.numVal with
    | some q => decide (0 ≤ q)
    | none => false
  | .error _ => false

/-- Whether a property read yielded a string without trailing
slash. -/
def jsonNoTrailingSlash (r : Except PyErr Json) : Bool :=
  match r with
  | .ok (.str s) => ! pyEndsWith s "/"
  | _ => false

/-- The invariant claim C8 asserts of a configuration state:
non-negative effective timeout, retry count and retry delay, and a
base URL without trailing slash. -/
def configInvariant (d : Json) : Prop :=
  jsonNonnegNum (configTimeout d) = true ∧
  jsonNonnegNum (configRetryCount d) = true ∧
  jsonNonnegNum (configRetryDelay d) = true ∧
  jsonNoTrailingSlash (configBaseUrl d) = true

/-- Claim C8: every reachable configuration state satisfies the
invariant, and every constructed client stores a base URL without a
trailing slash. -/
def claimC8 : Prop :=
  (∀ d : Json, ConfigReachable d → configInvariant d) ∧
  (∀ (arg : Option String) (hdrs : Option (List (String × String)))
     (cfgB : String) (cfgH : List (String × String)),
    pyEndsWith (APIClient.init arg hdrs cfgB cfgH).base_url "/" = false)

/-- Claim C8 is false as stated: Config.update performs unvalidated
item assignment, so one update call reaches a state whose timeout is
minus five; nothing in the code ever validates the values or strips
base URLs at storage time. -/
theorem C8_counterexample : ¬ claimC8 := by
  intro h
  have hreach : ConfigReachable (.obj (jdictSet defaultConfigEntries "timeout" (.int (-5)))) :=
    ConfigReachable.update defaultConfig "timeout" (.int (-5)) _
      (ConfigReachable.load "dev" .notFound "p" "e" defaultConfig rfl) rfl
  have hinv := (h.1 _ hreach).1
  have heval : configTimeout (.obj (jdictSet defaultConfigEntries "timeout" (.int (-5)))) =
      .ok (.int (-5)) := rfl
  rw [heval] at hinv
  norm_num [jsonNonnegNum, Json.numVal] at hinv

theorem pyEndsWith_pyRstrip (l : List Char) :
    pyEndsWith ⟨pyRstrip '/' l⟩ "/" = false := by
  unfold pyEndsWith pyRstrip
  simp only [List.reverse_reverse]
  have hh := head_pyLstrip '/' l.reverse
  cases hE : pyLstrip '/' l.reverse with
  | nil => rfl
  | cons x xs =>
    rw [hE] at hh
    simp only [List.head?_cons, ne_eq, Option.some.injEq] at hh
    show List.isPrefixOf ['/'] (x :: xs) = false
    simp [List.isPrefixOf]
    intro hx
    exact absurd hx.symm hh

/-- Amended claim C8: the invariant holds of the default
configuration, hence of every state loaded when the file is absent or
unparseable; and although a stored base URL may carry a trailing
slash, the base component actually used to build every request URL is
right-stripped of slashes first, and the client constructed from the
default configuration stores a slash-free base URL.  Arbitrary update
calls and arbitrary config files can break the invariant, which the
counterexample shows. -/
theorem C8_invariant_defaults :
    configInvariant defaultConfig ∧
    (∀ environment p e : String,
      (loadConfig environment .notFound p e).1 = .ok defaultConfig ∧
      (loadConfig environment .invalidJson p e).1 = .ok defaultConfig) ∧
    (∀ baseUrl : String, pyEndsWith ⟨pyRstrip '/' baseUrl.data⟩ "/" = false) ∧
    pyEndsWith (APIClient.init none none
      "https://jsonplaceholder.typicode.com" []).base_url "/" = false := by
  refine ⟨⟨?_, ?_, ?_, ?_⟩, fun environment p e => ⟨rfl, rfl⟩,
    fun baseUrl => pyEndsWith_pyRstrip baseUrl.data, by decide⟩
  · rw [show configTimeout defaultConfig = .ok (.int 30) from rfl]
    norm_num [jsonNonnegNum, Json.numVal]
  · rw [show configRetryCount defaultConfig = .ok (.int 3) from rfl]
    norm_num [jsonNonnegNum, Json.numVal]
  · rw [show configRetryDelay defaultConfig = .ok (.int 1) from rfl]
    norm_num [jsonNonnegNum, Json.numVal]
  · rw [show configBaseUrl defaultConfig =
      .ok (.str "https://jsonplaceholder.typicode.com") from rfl]
    decide
